import Mathlib

/-!
Verification of the stream-composition engine of the `source-stripe` connector
(`airbyte-integrations/connectors/source-stripe/source_stripe/streams.py`).

The Python code manipulates JSON-decoded values (dicts, lists, strings,
integers, booleans, None).  We embed those as the inductive `JVal` below and
translate each method of the source into a Lean function over `JVal`
(objects are association lists in insertion order, matching Python dicts).
-/

/-- A JSON-decoded Python value: `None`, `bool`, `int`, `str`, list, dict. -/
inductive JVal where
  | null : JVal
  | bool : Bool → JVal
  | int : Int → JVal
  | str : String → JVal
  | arr : List JVal → JVal
  | obj : List (String × JVal) → JVal
deriving Repr, Inhabited

mutual

def JVal.decEq : (a b : JVal) → Decidable (a = b)
  | .null, .null => isTrue rfl
  | .bool a, .bool b =>
      match inferInstanceAs (Decidable (a = b)) with
      | isTrue h => isTrue (by rw [h])
      | isFalse h => isFalse (by intro hc; cases hc; exact h rfl)
  | .int a, .int b =>
      match inferInstanceAs (Decidable (a = b)) with
      | isTrue h => isTrue (by rw [h])
      | isFalse h => isFalse (by intro hc; cases hc; exact h rfl)
  | .str a, .str b =>
      match inferInstanceAs (Decidable (a = b)) with
      | isTrue h => isTrue (by rw [h])
      | isFalse h => isFalse (by intro hc; cases hc; exact h rfl)
  | .arr xs, .arr ys =>
      match JVal.decEqList xs ys with
      | isTrue h => isTrue (by rw [h])
      | isFalse h => isFalse (by intro hc; cases hc; exact h rfl)
  | .obj xs, .obj ys =>
      match JVal.decEqFields xs ys with
      | isTrue h => isTrue (by rw [h])
      | isFalse h => isFalse (by intro hc; cases hc; exact h rfl)
  | .null, .bool _ | .null, .int _ | .null, .str _ | .null, .arr _ | .null, .obj _
  | .bool _, .null | .bool _, .int _ | .bool _, .str _ | .bool _, .arr _ | .bool _, .obj _
  | .int _, .null | .int _, .bool _ | .int _, .str _ | .int _, .arr _ | .int _, .obj _
  | .str _, .null | .str _, .bool _ | .str _, .int _ | .str _, .arr _ | .str _, .obj _
  | .arr _, .null | .arr _, .bool _ | .arr _, .int _ | .arr _, .str _ | .arr _, .obj _
  | .obj _, .null | .obj _, .bool _ | .obj _, .int _ | .obj _, .str _ | .obj _, .arr _ =>
      isFalse (by intro hc; cases hc)

def JVal.decEqList : (xs ys : List JVal) → Decidable (xs = ys)
  | [], [] => isTrue rfl
  | [], _ :: _ => isFalse (by intro hc; cases hc)
  | _ :: _, [] => isFalse (by intro hc; cases hc)
  | x :: xs, y :: ys =>
      match JVal.decEq x y, JVal.decEqList xs ys with
      | isTrue h1, isTrue h2 => isTrue (by rw [h1, h2])
      | isFalse h1, _ => isFalse (by intro hc; cases hc; exact h1 rfl)
      | _, isFalse h2 => isFalse (by intro hc; cases hc; exact h2 rfl)

def JVal.decEqFields : (xs ys : List (String × JVal)) → Decidable (xs = ys)
  | [], [] => isTrue rfl
  | [], _ :: _ => isFalse (by intro hc; cases hc)
  | _ :: _, [] => isFalse (by intro hc; cases hc)
  | (k, v) :: xs, (k', v') :: ys =>
      match inferInstanceAs (Decidable (k = k')), JVal.decEq v v', JVal.decEqFields xs ys with
      | isTrue h0, isTrue h1, isTrue h2 => isTrue (by rw [h0, h1, h2])
      | isFalse h0, _, _ => isFalse (by intro hc; cases hc; exact h0 rfl)
      | _, isFalse h1, _ => isFalse (by intro hc; cases hc; exact h1 rfl)
      | _, _, isFalse h2 => isFalse (by intro hc; cases hc; exact h2 rfl)

end

instance : DecidableEq JVal := JVal.decEq

namespace JVal

/-- `d.get(k)` on an association list: the first binding for `k`, if any. -/
def alookup : List (String × JVal) → String → Option JVal
  | [], _ => none
  | (k', v) :: rest, k => if k' = k then some v else alookup rest k

/-- `d[k] = v` on an association list: replace the first binding for `k`
in place, or append a new binding — Python dict assignment keeps the
insertion position of an existing key and appends a fresh one. -/
def aset : List (String × JVal) → String → JVal → List (String × JVal)
  | [], k, v => [(k, v)]
  | (k', v') :: rest, k, v =>
      if k' = k then (k, v) :: rest else (k', v') :: aset rest k v

/-- `record.get(k)` when `record` is a decoded JSON object; `none` when the
key is absent or the value is not an object. -/
def oget : JVal → String → Option JVal
  | obj fs, k => alookup fs k
  | _, _ => none

/-- `record.get(k, d)`: field lookup with a default. -/
def ogetD (j : JVal) (k : String) (d : JVal) : JVal :=
  (oget j k).getD d

/-- `record[k] = v` on a decoded JSON object.  (In Python, assignment on a
non-mapping raises `TypeError`; the claims below only ever instantiate this
on objects, where the behaviours agree.) -/
def oset : JVal → String → JVal → JVal
  | obj fs, k, v => obj (aset fs k v)
  | j, _, _ => j

/-- Iterating a decoded JSON value as a list (`yield from xs`, list
comprehension).  (In Python, iterating a non-list raises `TypeError`; the
claims below only ever iterate the `data` containers, which are lists.) -/
def asList : JVal → List JVal
  | arr xs => xs
  | _ => []

/-- Python falsiness for decoded JSON values: `None`, `False`, `0`, `""`,
`[]` and `{}` are falsy, everything else truthy. -/
def pyFalsy : JVal → Bool
  | null => true
  | bool b => !b
  | int n => n == 0
  | str s => s == ""
  | arr xs => xs.isEmpty
  | obj fs => fs.isEmpty

/-- Python truthiness (`if x:`). -/
def pyTruthy (j : JVal) : Bool := !pyFalsy j

end JVal

/-! ## The HTTP layer as this module sees it -/

/-- An HTTP response: status code and decoded JSON body. -/
structure HttpResponse where
  statusCode : Nat
  body : JVal
deriving Repr

/-- A pagination token or request-parameter dictionary (`Mapping[str, Any]`). -/
abbrev ParamDict := List (String × JVal)

/-- `StripeStream.next_page_token`: `return None`, for every response. -/
def StripeStream.next_page_token (_ : HttpResponse) : Option ParamDict :=
  none

/-- `StripeStream.request_params`: `params = {"limit": 100}`, then
`params.update(next_page_token)` when the token is truthy (`None` and the
empty dict are falsy).  The base implementation ignores the stream state
and the stream slice. -/
def StripeStream.request_params (_stream_state _stream_slice : ParamDict)
    (next_page_token : Option ParamDict) : ParamDict :=
  let params : ParamDict := [("limit", JVal.int 100)]
  match next_page_token with
  | some tok =>
      if tok.isEmpty then params
      else tok.foldl (fun d kv => JVal.aset d kv.1 kv.2) params
  | none => params

/-- `StripeStream.parse_response`: yield the elements of the body's `data`
container, default `[]`.  (On a non-object body, Python's `.get` raises
`AttributeError`; responses below always carry object bodies.) -/
def StripeStream.parse_response (response : HttpResponse) : List JVal :=
  JVal.asList (JVal.ogetD response.body "data" (JVal.arr []))

/-- Modelled from the spec: the generic paginated read loop
(`HttpStream.read_records` of the airbyte-cdk, which is not under `src/`).
Per the spec, a read starts pagination fresh from `next_page_token = None`;
on each page it yields every record the stream's `parse_response` extracts,
then computes the continuation token for that page with the stream's
`next_page_token` and terminates when no token is returned.  `fuel` bounds
the number of pages so the loop is total; every run below is given more
fuel than the pages it consumes. -/
def pagedReadAux (fetch : Option ParamDict → HttpResponse)
    (nextToken : HttpResponse → Option ParamDict)
    (parse : HttpResponse → List JVal) :
    Nat → Option ParamDict → List JVal
  | 0, _ => []
  | fuel + 1, tok =>
      let response := fetch tok
      parse response ++
        match nextToken response with
        | none => []
        | some t => pagedReadAux fetch nextToken parse fuel (some t)

/-- The generic paginated read, starting from no continuation token. -/
def pagedRead (fuel : Nat) (fetch : Option ParamDict → HttpResponse)
    (nextToken : HttpResponse → Option ParamDict)
    (parse : HttpResponse → List JVal) : List JVal :=
  pagedReadAux fetch nextToken parse fuel none

/-- The sequence of continuation tokens with which the paginated read loop
issues its page requests (`none` is the initial token-less request). -/
def pagedRequestsAux (fetch : Option ParamDict → HttpResponse)
    (nextToken : HttpResponse → Option ParamDict) :
    Nat → Option ParamDict → List (Option ParamDict)
  | 0, _ => []
  | fuel + 1, tok =>
      tok ::
        match nextToken (fetch tok) with
        | none => []
        | some t => pagedRequestsAux fetch nextToken fuel (some t)

/-- The requests issued by a paginated read, starting from no token. -/
def pagedRequests (fuel : Nat) (fetch : Option ParamDict → HttpResponse)
    (nextToken : HttpResponse → Option ParamDict) : List (Option ParamDict) :=
  pagedRequestsAux fetch nextToken fuel none

/-! ## IncrementalStripeStream -/

/-- Python `max(a, b)` as applied to cursor values: defined on two integers;
any other combination — in particular `None` from a missing record field —
raises `TypeError`, embedded as `.error`. -/
def pyMax : JVal → JVal → Except String JVal
  | JVal.int a, JVal.int b => .ok (JVal.int (max a b))
  | _, _ => .error "TypeError: unsupported operand types for max"

/-- `IncrementalStripeStream.get_updated_state`:
`{cursor_field: max(latest_record.get(cf), current_stream_state.get(cf, 0))}`.
Only the *state* lookup is defaulted (to `0`); a record without the cursor
field feeds `None` into `max`, which raises. -/
def get_updated_state (cursor_field : String)
    (current_stream_state latest_record : ParamDict) :
    Except String ParamDict := do
  let m ← pyMax ((JVal.alookup latest_record cursor_field).getD JVal.null)
      ((JVal.alookup current_stream_state cursor_field).getD (JVal.int 0))
  pure [(cursor_field, m)]

/-- `get_updated_state` folded over the records of a read, in order — the
way the surrounding framework applies it record by record. -/
def fold_updated_state (cursor_field : String) (state : ParamDict)
    (records : List ParamDict) : Except String ParamDict :=
  records.foldlM (get_updated_state cursor_field) state

/-- `IncrementalStripeStream.get_start_timestamp`.  The stream state holds
the persisted integer epoch seconds; `pendulum`'s `subtract(days=n)` on a
UTC timestamp subtracts exactly `n * 86400` seconds, and the code passes
`abs(self.lookback_window_days)` days. -/
def get_start_timestamp (start_date lookback_window_days : Int)
    (cursor_field : String) (stream_state : List (String × Int)) : Int :=
  let start_point :=
    if stream_state ≠ [] ∧ (stream_state.lookup cursor_field).isSome then
      max start_date ((stream_state.lookup cursor_field).getD 0)
    else start_date
  if start_point ≠ 0 ∧ lookback_window_days ≠ 0 then
    start_point - (lookback_window_days.natAbs : Int) * 86400
  else start_point

/-! ## StripeSubStream -/

/-- The class-level configuration of a `StripeSubStream` subclass: the
abstract attributes `parent_id` and `sub_items_attr` plus the optional
`filter` and `add_parent_id`. -/
structure SubStreamCfg where
  parent_id : String
  sub_items_attr : String
  itemFilter : Option (String × JVal) := none
  add_parent_id : Bool := false

/-- `StripeSubStream.request_params`: base params, then set
`starting_after` from the slice when the params do not already carry a
truthy one and the slice carries a truthy one. -/
def StripeSubStream.request_params (stream_state stream_slice : ParamDict)
    (next_page_token : Option ParamDict) : ParamDict :=
  let params := StripeStream.request_params stream_state stream_slice next_page_token
  if JVal.pyFalsy ((JVal.alookup params "starting_after").getD JVal.null)
      ∧ stream_slice ≠ []
      ∧ JVal.pyTruthy ((JVal.alookup stream_slice "starting_after").getD JVal.null) then
    JVal.aset params "starting_after"
      ((JVal.alookup stream_slice "starting_after").getD JVal.null)
  else params

/-- The per-parent-record body of `StripeSubStream.read_records`: extract the
embedded container, skip a falsy one, filter the items when `filter` is set,
invoke the overflow read `ovf` (that is, `super().read_records(...)` with the
constructed slice) when `has_more` is truthy and an item survived, then emit
embedded items followed by overflow items, setting the parent-id field on
each when `add_parent_id` is set.  (`record["id"]` raises `KeyError` on a
record without `"id"`; every record below carries one, where the embedded
default `null` agrees with the source.) -/
def processParent (cfg : SubStreamCfg)
    (ovf : ParamDict → List JVal) (record : JVal) : List JVal :=
  let items_obj := JVal.ogetD record cfg.sub_items_attr (JVal.obj [])
  if JVal.pyFalsy items_obj then []
  else
    let items := JVal.asList (JVal.ogetD items_obj "data" (JVal.arr []))
    let items :=
      match cfg.itemFilter with
      | some (attr, value) =>
          items.filter (fun i => (JVal.oget i attr).getD JVal.null == value)
      | none => items
    let items_next_pages :=
      if JVal.pyTruthy (JVal.ogetD items_obj "has_more" JVal.null) ∧ items ≠ [] then
        ovf [(cfg.parent_id, JVal.ogetD record "id" JVal.null),
             ("starting_after", JVal.ogetD (items.getLastD JVal.null) "id" JVal.null)]
      else []
    (items ++ items_next_pages).map (fun item =>
      if cfg.add_parent_id then
        JVal.oset item cfg.parent_id (JVal.ogetD record "id" JVal.null)
      else item)

/-- `StripeSubStream.read_records`: run `processParent` over every record the
parent stream produced, concatenating the per-parent emissions in order. -/
def StripeSubStream.read_records (cfg : SubStreamCfg) (parent_records : List JVal)
    (ovf : ParamDict → List JVal) : List JVal :=
  (parent_records.map (processParent cfg ovf)).flatten

/-- The overflow read `super().read_records(...)` of a `StripeSubStream`:
the generic paginated loop over this stream's own `request_params`, the
inherited `parse_response` and the inherited `next_page_token`, against a
backend `fetch` mapping request parameters to responses. -/
def subStreamOverflowRead (fuel : Nat) (fetch : ParamDict → HttpResponse)
    (stream_slice : ParamDict) : List JVal :=
  pagedRead fuel
    (fun tok => fetch (StripeSubStream.request_params [] stream_slice tok))
    StripeStream.next_page_token StripeStream.parse_response

/-- A complete `StripeSubStream` read over already-fetched parent records,
with overflow pages served by the backend `fetch`. -/
def subStreamFullRead (cfg : SubStreamCfg) (fuel : Nat)
    (parent_records : List JVal) (fetch : ParamDict → HttpResponse) : List JVal :=
  StripeSubStream.read_records cfg parent_records (subStreamOverflowRead fuel fetch)

/-! ## CheckoutSessionsLineItems -/

/-- `CheckoutSessionsLineItems.parse_response`: a 404 yields no records and
raises nothing; otherwise `response.raise_for_status()` raises exactly for
a status code in `[400, 600)` (embedded as `.error code`); otherwise every
record of the `data` container gets `checkout_session_id` from the slice
when both the data and the slice are truthy. -/
def CheckoutSessionsLineItems.parse_response (stream_slice : ParamDict)
    (response : HttpResponse) : Except Nat (List JVal) :=
  if response.statusCode = 404 then .ok []
  else if 400 ≤ response.statusCode ∧ response.statusCode < 600 then
    .error response.statusCode
  else
    let data := JVal.asList (JVal.ogetD response.body "data" (JVal.arr []))
    if data ≠ [] ∧ stream_slice ≠ [] then
      let cs_id := (JVal.alookup stream_slice "checkout_session_id").getD JVal.null
      .ok (data.map (fun e => JVal.oset e "checkout_session_id" cs_id))
    else .ok data

/-! ## Association-list lemmas -/

namespace JVal

theorem alookup_aset_self (d : List (String × JVal)) (k : String) (v : JVal) :
    alookup (aset d k v) k = some v := by
  induction d with
  | nil => simp [aset, alookup]
  | cons kv rest ih =>
      obtain ⟨k', v'⟩ := kv
      by_cases h : k' = k <;> simp [aset, alookup, h, ih]

theorem alookup_aset_ne (d : List (String × JVal)) (k k' : String) (v : JVal)
    (h : k' ≠ k) : alookup (aset d k' v) k = alookup d k := by
  induction d with
  | nil => simp [aset, alookup, h]
  | cons kv rest ih =>
      obtain ⟨k₀, v₀⟩ := kv
      by_cases h₀ : k₀ = k' <;> simp [aset, alookup, h₀, h, ih]

theorem alookup_eq_none (d : List (String × JVal)) (k : String) :
    alookup d k = none ↔ k ∉ d.map Prod.fst := by
  induction d with
  | nil => simp [alookup]
  | cons kv rest ih =>
      obtain ⟨k', v'⟩ := kv
      by_cases h : k' = k
      · subst h
        simp [alookup]
      · simp [alookup, h, ih, Ne.symm h]

/-- Updating a dict with a token that does not bind `k` leaves the binding
for `k` unchanged. -/
theorem alookup_foldl_aset_not_mem (tok : List (String × JVal)) (d : List (String × JVal))
    (k : String) (h : k ∉ tok.map Prod.fst) :
    alookup (tok.foldl (fun d kv => aset d kv.1 kv.2) d) k = alookup d k := by
  induction tok generalizing d with
  | nil => rfl
  | cons kv rest ih =>
      obtain ⟨k', v'⟩ := kv
      simp only [List.map_cons, List.mem_cons] at h
      push_neg at h
      simp only [List.foldl_cons]
      rw [ih _ h.2, alookup_aset_ne _ _ _ _ (fun hc => h.1 hc.symm)]

/-- Updating a dict with a duplicate-free token makes every binding of the
token visible verbatim in the result. -/
theorem alookup_foldl_aset_mem (tok : List (String × JVal)) (d : List (String × JVal))
    (k : String) (v : JVal) (hnd : (tok.map Prod.fst).Nodup)
    (h : alookup tok k = some v) :
    alookup (tok.foldl (fun d kv => aset d kv.1 kv.2) d) k = some v := by
  induction tok generalizing d with
  | nil => simp [alookup] at h
  | cons kv rest ih =>
      obtain ⟨k', v'⟩ := kv
      simp only [List.map_cons, List.nodup_cons] at hnd
      simp only [alookup] at h
      by_cases hk : k' = k
      · subst hk
        simp at h
        subst h
        simp only [List.foldl_cons]
        rw [alookup_foldl_aset_not_mem _ _ _ hnd.1, alookup_aset_self]
      · rw [if_neg hk] at h
        simp only [List.foldl_cons]
        exact ih _ hnd.2 h

theorem oget_oset_obj (fs : List (String × JVal)) (k : String) (v : JVal) :
    oget (oset (obj fs) k v) k = some v := by
  simp [oset, oget, alookup_aset_self]

end JVal

/-! ## IncrementalStripeStream: state updates and the lookback window -/

/-- `Except.bind` on an `ok` value reduces to the continuation. -/
theorem exceptBind_ok {ε α β : Type} (a : α) (f : α → Except ε β) :
    (Except.ok a >>= f : Except ε β) = f a := rfl

/-- One `get_updated_state` step on integer cursor values. -/
theorem get_updated_state_int (cf : String) (state latest : ParamDict) (v w : Int)
    (hr : JVal.alookup latest cf = some (JVal.int v))
    (hs : (JVal.alookup state cf).getD (JVal.int 0) = JVal.int w) :
    get_updated_state cf state latest = .ok [(cf, JVal.int (max v w))] := by
  simp [get_updated_state, hr, hs, pyMax]

/-- Folding `get_updated_state` from a singleton cursor state accumulates the
running maximum of the record cursor values. -/
theorem fold_updated_state_singleton (cf : String) :
    ∀ (records : List ParamDict) (vs : List Int) (w : Int),
      records.map (fun r => JVal.alookup r cf) = vs.map (fun n => some (JVal.int n)) →
      fold_updated_state cf [(cf, JVal.int w)] records =
        .ok [(cf, JVal.int (vs.foldl max w))] := by
  intro records
  induction records with
  | nil =>
      intro vs w hmap
      have hvs : vs = [] := by
        cases vs with
        | nil => rfl
        | cons a l => simp at hmap
      subst hvs
      simp only [fold_updated_state, List.foldlM_nil, List.foldl_nil]
      rfl
  | cons r rest ih =>
      intro vs w hmap
      cases vs with
      | nil => simp at hmap
      | cons v vs =>
          simp only [List.map_cons, List.cons.injEq] at hmap
          have hstep : get_updated_state cf [(cf, JVal.int w)] r =
              .ok [(cf, JVal.int (max v w))] :=
            get_updated_state_int cf _ _ v w hmap.1 (by simp [JVal.alookup])
          have htail := ih vs (max v w) hmap.2
          simp only [fold_updated_state, List.foldlM_cons, hstep] at htail ⊢
          rw [exceptBind_ok, htail, List.foldl_cons, max_comm w v]

/-- C2: for every `IncrementalStream`, old state and record containing the
cursor field, `get_updated_state` returns
`{cursor_field: max(old_state.get(cursor_field, 0), record[cursor_field])}`,
treating an absent old value as `0`; consequently folding it over a read's
records `R` yields the maximum of all record cursor values and the prior
state value. -/
theorem c2_update_state_max (cf : String) (state latest : ParamDict) (v w : Int)
    (hrec : JVal.alookup latest cf = some (JVal.int v))
    (hstate : (JVal.alookup state cf).getD (JVal.int 0) = JVal.int w) :
    get_updated_state cf state latest = .ok [(cf, JVal.int (max w v))] ∧
    ∀ (records : List ParamDict) (vs : List Int),
      records.map (fun r => JVal.alookup r cf) = vs.map (fun n => some (JVal.int n)) →
      records ≠ [] →
      fold_updated_state cf state records = .ok [(cf, JVal.int (vs.foldl max w))] := by
  constructor
  · rw [get_updated_state_int cf state latest v w hrec hstate, max_comm]
  · intro records vs hmap hne
    cases records with
    | nil => exact absurd rfl hne
    | cons r rest =>
        cases vs with
        | nil => simp at hmap
        | cons v₁ vs₁ =>
            simp only [List.map_cons, List.cons.injEq] at hmap
            have hstep : get_updated_state cf state r = .ok [(cf, JVal.int (max v₁ w))] :=
              get_updated_state_int cf state r v₁ w hmap.1 hstate
            have htail := fold_updated_state_singleton cf rest vs₁ (max v₁ w) hmap.2
            simp only [fold_updated_state, List.foldlM_cons, hstep] at htail ⊢
            rw [exceptBind_ok, htail, List.foldl_cons, max_comm w v₁]

/-- Witness for C2 at a concrete state and concrete records. -/
theorem c2_update_state_max_witness :
    get_updated_state "created" [("created", JVal.int 3)] [("created", JVal.int 5)] =
      .ok [("created", JVal.int (max 3 5))] ∧
    fold_updated_state "created" [("created", JVal.int 3)]
      [[("created", JVal.int 5)], [("created", JVal.int 9)]] =
      .ok [("created", JVal.int ([5, 9].foldl max 3))] := by
  have h := c2_update_state_max "created" [("created", JVal.int 3)]
    [("created", JVal.int 5)] 5 3 rfl rfl
  exact ⟨h.1, h.2 [[("created", JVal.int 5)], [("created", JVal.int 9)]] [5, 9] rfl
    (by simp)⟩

/-- C9: `get_updated_state` is defined only when the latest record carries
the cursor field — a record without it feeds `None` into `max`, which
raises; only an absent *old state* value is defaulted to `0`. -/
theorem c9_update_state_missing_cursor (cf : String) (state latest : ParamDict)
    (hmiss : JVal.alookup latest cf = none) :
    get_updated_state cf state latest =
      .error "TypeError: unsupported operand types for max" ∧
    ∀ (latest₂ : ParamDict) (v : Int),
      JVal.alookup latest₂ cf = some (JVal.int v) →
      JVal.alookup state cf = none →
      get_updated_state cf state latest₂ = .ok [(cf, JVal.int (max v 0))] := by
  constructor
  · cases hx : (JVal.alookup state cf).getD (JVal.int 0) <;>
      simp [get_updated_state, hmiss, pyMax, hx]
  · intro latest₂ v hv habsent
    exact get_updated_state_int cf state latest₂ v 0 hv (by rw [habsent]; rfl)

/-- Witness for C9: a record without `created` makes the update raise, a
record with it succeeds against an empty state. -/
theorem c9_update_state_missing_cursor_witness :
    get_updated_state "created" [] [("object", JVal.str "charge")] =
      .error "TypeError: unsupported operand types for max" ∧
    get_updated_state "created" [] [("created", JVal.int 5)] =
      .ok [("created", JVal.int (max 5 0))] := by
  have h := c9_update_state_missing_cursor "created" [] [("object", JVal.str "charge")]
    (by rfl)
  exact ⟨h.1, h.2 [("created", JVal.int 5)] 5 rfl rfl⟩

/-- C3: with a lookback window `d > 0`, the effective start timestamp is
`max(start_date, state[cursor_field] or 0) - d*86400` whenever that maximum
is non-zero, and the subtraction is never applied when the maximum is `0`.
(`start_date` is an epoch-seconds configuration value, hence non-negative.) -/
theorem c3_lookback_window (start_date d : Int) (cf : String)
    (state : List (String × Int)) (hsd : 0 ≤ start_date) (hd : 0 < d) :
    (max start_date ((state.lookup cf).getD 0) ≠ 0 →
      get_start_timestamp start_date d cf state =
        max start_date ((state.lookup cf).getD 0) - d * 86400) ∧
    (max start_date ((state.lookup cf).getD 0) = 0 →
      get_start_timestamp start_date d cf state = 0) := by
  have hstart :
      (if state ≠ [] ∧ (state.lookup cf).isSome then
        max start_date ((state.lookup cf).getD 0)
      else start_date) = max start_date ((state.lookup cf).getD 0) := by
    by_cases hc : state ≠ [] ∧ (state.lookup cf).isSome
    · rw [if_pos hc]
    · rw [if_neg hc]
      have hnone : state.lookup cf = none := by
        by_cases hsnil : state = []
        · subst hsnil
          rfl
        · push_neg at hc
          exact Option.not_isSome_iff_eq_none.mp (hc hsnil)
      rw [hnone]
      simp [max_eq_left hsd]
  have hd0 : d ≠ 0 := ne_of_gt hd
  have habs : (d.natAbs : Int) = d := Int.natAbs_of_nonneg hd.le
  constructor
  · intro hm
    simp only [get_start_timestamp]
    rw [hstart, if_pos (And.intro hm hd0), habs]
  · intro hm
    simp only [get_start_timestamp]
    rw [hstart, if_neg (by rw [hm]; simp), hm]

/-- Witness for C3: state `{created: 500}`, start date `100`, one-day
window gives `500 - 86400`; a zero maximum is returned untouched. -/
theorem c3_lookback_window_witness :
    get_start_timestamp 100 1 "created" [("created", 500)] = -85900 ∧
    get_start_timestamp 0 1 "created" [] = 0 := by
  constructor
  · have h := (c3_lookback_window 100 1 "created" [("created", 500)]
      (by norm_num) (by norm_num)).1 (by decide)
    rw [h]
    decide
  · exact (c3_lookback_window 0 1 "created" [] (le_refl 0) (by norm_num)).2 (by decide)

/-! ## StripeStream: pagination defaults -/

/-- C7: for every stream state, slice and page token, the built request
parameters default to exactly `{limit: 100}`, every field of a present page
token is merged verbatim, and the limit stays `100` whenever the token does
not itself rebind `limit`. -/
theorem c7_request_params (stream_state stream_slice : ParamDict) :
    StripeStream.request_params stream_state stream_slice none =
      [("limit", JVal.int 100)] ∧
    ∀ tok : ParamDict, (tok.map Prod.fst).Nodup →
      (∀ k v, JVal.alookup tok k = some v →
        JVal.alookup (StripeStream.request_params stream_state stream_slice (some tok)) k
          = some v) ∧
      (JVal.alookup tok "limit" = none →
        JVal.alookup (StripeStream.request_params stream_state stream_slice (some tok))
          "limit" = some (JVal.int 100)) := by
  refine ⟨rfl, fun tok hnd => ⟨?_, ?_⟩⟩
  · intro k v hv
    have htne : ¬ (tok.isEmpty = true) := by
      cases tok with
      | nil => simp [JVal.alookup] at hv
      | cons a l => simp
    simp only [StripeStream.request_params, if_neg htne]
    exact JVal.alookup_foldl_aset_mem tok _ k v hnd hv
  · intro hnol
    by_cases hemp : tok.isEmpty = true
    · simp only [StripeStream.request_params, if_pos hemp]
      rfl
    · simp only [StripeStream.request_params, if_neg hemp]
      rw [JVal.alookup_foldl_aset_not_mem tok _ "limit"
        ((JVal.alookup_eq_none tok "limit").mp hnol)]
      rfl

/-- Witness for C7 at the token `{starting_after: "ob_1"}`. -/
theorem c7_request_params_witness :
    StripeStream.request_params [] [] none = [("limit", JVal.int 100)] ∧
    JVal.alookup (StripeStream.request_params [] []
      (some [("starting_after", JVal.str "ob_1")])) "starting_after" =
      some (JVal.str "ob_1") ∧
    JVal.alookup (StripeStream.request_params [] []
      (some [("starting_after", JVal.str "ob_1")])) "limit" = some (JVal.int 100) := by
  have h := c7_request_params [] []
  have h2 := h.2 [("starting_after", JVal.str "ob_1")] (by simp)
  exact ⟨h.1, h2.1 "starting_after" (JVal.str "ob_1") rfl, h2.2 rfl⟩

/-- C8: `StripeStream.next_page_token` returns `None` for every response, so
the paginated read of any stream built on this base issues exactly one page
request per slice — with no continuation token — and emits exactly what its
parser extracts from that single page. -/
theorem c8_single_page (r : HttpResponse) :
    StripeStream.next_page_token r = none ∧
    ∀ (fetch : Option ParamDict → HttpResponse) (parse : HttpResponse → List JVal)
      (fuel : Nat), 0 < fuel →
      pagedRead fuel fetch StripeStream.next_page_token parse = parse (fetch none) ∧
      pagedRequests fuel fetch StripeStream.next_page_token = [none] := by
  refine ⟨rfl, fun fetch parse fuel hf => ?_⟩
  obtain ⟨n, rfl⟩ : ∃ n, fuel = n + 1 := ⟨fuel - 1, (Nat.succ_pred_eq_of_pos hf).symm⟩
  constructor
  · simp [pagedRead, pagedReadAux, StripeStream.next_page_token]
  · simp [pagedRequests, pagedRequestsAux, StripeStream.next_page_token]

/-- Witness for C8: three units of fuel still fetch exactly one page. -/
theorem c8_single_page_witness :
    pagedRead 3 (fun _ => ⟨200, JVal.obj [("data", JVal.arr [JVal.int 1])]⟩)
      StripeStream.next_page_token StripeStream.parse_response = [JVal.int 1] ∧
    pagedRequests 3 (fun _ => ⟨200, JVal.obj [("data", JVal.arr [JVal.int 1])]⟩)
      StripeStream.next_page_token = [none] := by
  have h := (c8_single_page ⟨200, JVal.null⟩).2
    (fun _ => ⟨200, JVal.obj [("data", JVal.arr [JVal.int 1])]⟩)
    StripeStream.parse_response 3 (by norm_num)
  exact ⟨by rw [h.1]; rfl, h.2⟩

/-! ## CheckoutSessionsLineItems: error handling and record tagging -/

/-- Counterexample to C4 as stated: a status-303 response is not a 2xx and
not a 404, yet `parse_response` raises nothing and yields a record. -/
theorem c4_counterexample :
    (303 < 200 ∨ 299 < 303) ∧ 303 ≠ 404 ∧
    CheckoutSessionsLineItems.parse_response [("checkout_session_id", JVal.str "cs_1")]
      ⟨303, JVal.obj [("data", JVal.arr [JVal.obj [("id", JVal.str "li_1")]])]⟩ =
      .ok [JVal.obj [("id", JVal.str "li_1"),
        ("checkout_session_id", JVal.str "cs_1")]] :=
  ⟨Or.inr (by norm_num), by norm_num, rfl⟩

/-- C4 (amended): a 404 yields zero records and raises nothing, and every
response with a status code in `[400, 600)` other than 404 fails the read
(`raise_for_status` raises exactly on that range, so the remaining non-2xx
codes — the 3xx family — do not fail). -/
theorem c4_error_handling (stream_slice : ParamDict) (body : JVal) (c : Nat) :
    CheckoutSessionsLineItems.parse_response stream_slice ⟨404, body⟩ = .ok [] ∧
    (400 ≤ c → c < 600 → c ≠ 404 →
      CheckoutSessionsLineItems.parse_response stream_slice ⟨c, body⟩ = .error c) := by
  constructor
  · rfl
  · intro h4 h6 hne
    simp only [CheckoutSessionsLineItems.parse_response]
    rw [if_neg hne, if_pos (And.intro h4 h6)]

/-- Witness for C4 (amended) at statuses 404 and 500. -/
theorem c4_error_handling_witness :
    CheckoutSessionsLineItems.parse_response [] ⟨404, JVal.obj []⟩ = .ok [] ∧
    CheckoutSessionsLineItems.parse_response [] ⟨500, JVal.obj []⟩ = .error 500 := by
  have h := c4_error_handling [] (JVal.obj []) 500
  exact ⟨h.1, h.2 (by norm_num) (by norm_num) (by norm_num)⟩

/-- C10: every record yielded from a non-404 response whose `data` container
is non-empty, under a slice carrying `checkout_session_id`, has its
`checkout_session_id` field set to the slice's value. -/
theorem c10_checkout_session_id (stream_slice : ParamDict) (response : HttpResponse)
    (v : JVal) (recs : List JVal) (r : JVal)
    (h404 : response.statusCode ≠ 404)
    (hslice : JVal.alookup stream_slice "checkout_session_id" = some v)
    (hdata : JVal.asList (JVal.ogetD response.body "data" (JVal.arr [])) ≠ [])
    (hobj : ∀ x ∈ JVal.asList (JVal.ogetD response.body "data" (JVal.arr [])),
      ∃ fs, x = JVal.obj fs)
    (hok : CheckoutSessionsLineItems.parse_response stream_slice response = .ok recs)
    (hmem : r ∈ recs) :
    JVal.oget r "checkout_session_id" = some v := by
  have hsne : stream_slice ≠ [] := by
    intro hs
    rw [hs] at hslice
    simp [JVal.alookup] at hslice
  simp only [CheckoutSessionsLineItems.parse_response] at hok
  rw [if_neg h404] at hok
  by_cases herr : 400 ≤ response.statusCode ∧ response.statusCode < 600
  · rw [if_pos herr] at hok
    simp at hok
  · rw [if_neg herr, if_pos (And.intro hdata hsne)] at hok
    rw [Except.ok.injEq] at hok
    subst hok
    obtain ⟨x, hx, hr⟩ := List.mem_map.mp hmem
    obtain ⟨fs, hfs⟩ := hobj x hx
    subst hfs
    rw [← hr, hslice]
    exact JVal.oget_oset_obj fs "checkout_session_id" v

/-- Witness for C10 at a concrete 200 response with one record. -/
theorem c10_checkout_session_id_witness :
    JVal.oget (JVal.obj [("id", JVal.str "li_1"),
      ("checkout_session_id", JVal.str "cs_1")]) "checkout_session_id" =
      some (JVal.str "cs_1") := by
  refine c10_checkout_session_id [("checkout_session_id", JVal.str "cs_1")]
    ⟨200, JVal.obj [("data", JVal.arr [JVal.obj [("id", JVal.str "li_1")]])]⟩
    (JVal.str "cs_1")
    [JVal.obj [("id", JVal.str "li_1"), ("checkout_session_id", JVal.str "cs_1")]]
    (JVal.obj [("id", JVal.str "li_1"), ("checkout_session_id", JVal.str "cs_1")])
    (by norm_num) rfl (by simp [JVal.asList, JVal.ogetD, JVal.oget, JVal.alookup])
    ?_ rfl (by simp)
  intro x hx
  simp [JVal.asList, JVal.ogetD, JVal.oget, JVal.alookup] at hx
  exact ⟨[("id", JVal.str "li_1")], hx⟩

/-! ## StripeSubStream: embedded items, overflow pagination, filter, parent id -/

/-- The `InvoiceLineItems`-shaped configuration (without parent-id injection). -/
def invoiceLinesCfg : SubStreamCfg :=
  { parent_id := "invoice_id", sub_items_attr := "lines" }

/-- A parent invoice whose embedded `lines` container holds one item and
flags `has_more`. -/
def c1ParentRecord : JVal :=
  .obj [("id", .str "in_1"),
    ("lines", .obj [("data", .arr [.obj [("id", .str "il_1")]]),
      ("has_more", .bool true)])]

/-- A backend whose overflow for `in_1` spans two pages: `il_2` (which again
flags `has_more`), then `il_3` at `starting_after = "il_2"`. -/
def c1Backend : ParamDict → HttpResponse := fun params =>
  if JVal.alookup params "starting_after" = some (.str "il_1") then
    ⟨200, .obj [("data", .arr [.obj [("id", .str "il_2")]]), ("has_more", .bool true)]⟩
  else if JVal.alookup params "starting_after" = some (.str "il_2") then
    ⟨200, .obj [("data", .arr [.obj [("id", .str "il_3")]]), ("has_more", .bool false)]⟩
  else ⟨200, .obj [("data", .arr [])]⟩

/-- C1 evaluated at the failing input: the backend's overflow spans two
pages (`il_2`, whose page flags `has_more`, then `il_3`), yet the read emits
only the embedded `il_1` and the first overflow page `il_2` — because
`next_page_token` always returns `None`, the re-invoked paginated read never
requests the second overflow page, so the emitted sequence has a gap. -/
theorem c1_overflow_truncated :
    subStreamFullRead invoiceLinesCfg 5 [c1ParentRecord] c1Backend =
      [JVal.obj [("id", JVal.str "il_1")], JVal.obj [("id", JVal.str "il_2")]] ∧
    JVal.ogetD (c1Backend [("limit", JVal.int 100),
      ("starting_after", JVal.str "il_1")]).body "has_more" JVal.null =
      JVal.bool true ∧
    StripeStream.parse_response (c1Backend [("limit", JVal.int 100),
      ("starting_after", JVal.str "il_2")]) = [JVal.obj [("id", JVal.str "il_3")]] ∧
    subStreamFullRead invoiceLinesCfg 5 [c1ParentRecord] c1Backend ≠
      [JVal.obj [("id", JVal.str "il_1")], JVal.obj [("id", JVal.str "il_2")],
       JVal.obj [("id", JVal.str "il_3")]] := by
  refine ⟨rfl, rfl, rfl, ?_⟩
  rw [show subStreamFullRead invoiceLinesCfg 5 [c1ParentRecord] c1Backend =
    [JVal.obj [("id", JVal.str "il_1")], JVal.obj [("id", JVal.str "il_2")]] from rfl]
  decide

/-- The `InvoiceLineItems` configuration with `add_parent_id = True`. -/
def invoiceLinesAddIdCfg : SubStreamCfg :=
  { parent_id := "invoice_id", sub_items_attr := "lines", add_parent_id := true }

/-- A parent invoice whose single embedded line item already carries an
`invoice_id` field (value `in_OLD`). -/
def c6ParentRecord : JVal :=
  .obj [("id", .str "in_1"),
    ("lines", .obj [("data", .arr [.obj [("id", .str "il_1"),
      ("invoice_id", .str "in_OLD")]]), ("has_more", .bool false)])]

/-- A backend with no data, for reads that should issue no overflow fetch. -/
def emptyBackend : ParamDict → HttpResponse := fun _ =>
  ⟨200, .obj [("data", .arr [])]⟩

/-- C6 evaluated at the failing input: an item that arrives with
`invoice_id = "in_OLD"` already present is emitted with the field
overwritten to the parent's id `in_1` — the assignment is unconditional,
against the claim (and the source's own comment) that an already-present
field keeps its original value. -/
theorem c6_parent_id_overwritten :
    subStreamFullRead invoiceLinesAddIdCfg 5 [c6ParentRecord] emptyBackend =
      [JVal.obj [("id", JVal.str "il_1"), ("invoice_id", JVal.str "in_1")]] ∧
    JVal.oget (JVal.obj [("id", JVal.str "il_1"), ("invoice_id", JVal.str "in_1")])
      "invoice_id" ≠ some (JVal.str "in_OLD") :=
  ⟨rfl, by decide⟩

/-- The `BankAccounts` configuration: a filter keeping only items whose
`object` is `bank_account`; no parent-id injection. -/
def bankAccountsCfg : SubStreamCfg :=
  { parent_id := "customer_id", sub_items_attr := "sources",
    itemFilter := some ("object", JVal.str "bank_account") }

/-- A parent customer with one embedded bank account and `has_more` set. -/
def c5ParentRecord : JVal :=
  .obj [("id", .str "cus_1"),
    ("sources", .obj [("data", .arr [
        .obj [("id", .str "ba_1"), ("object", .str "bank_account")]]),
      ("has_more", .bool true)])]

/-- A backend whose overflow page for `cus_1` contains a card, not a bank
account. -/
def c5Backend : ParamDict → HttpResponse := fun params =>
  if JVal.alookup params "starting_after" = some (.str "ba_1") then
    ⟨200, .obj [("data", .arr [.obj [("id", .str "card_1"),
      ("object", .str "card")]]), ("has_more", .bool false)]⟩
  else ⟨200, .obj [("data", .arr [])]⟩

/-- Counterexample to C5 as stated: with the `bank_account` filter
configured, the read still emits a record with `object = "card"` — the
filter is applied to the parent-embedded items only, and the overflow page
is emitted as returned. -/
theorem c5_counterexample :
    subStreamFullRead bankAccountsCfg 5 [c5ParentRecord] c5Backend =
      [JVal.obj [("id", JVal.str "ba_1"), ("object", JVal.str "bank_account")],
       JVal.obj [("id", JVal.str "card_1"), ("object", JVal.str "card")]] ∧
    JVal.oget (JVal.obj [("id", JVal.str "card_1"), ("object", JVal.str "card")])
      "object" ≠ some (JVal.str "bank_account") :=
  ⟨rfl, by decide⟩

/-- The embedded items a `StripeSubStream` keeps from one parent record: the
`data` list of the embedded container (empty when the container is falsy),
filtered by `filter` when one is configured. -/
def subEmbeddedKept (cfg : SubStreamCfg) (record : JVal) : List JVal :=
  let items_obj := JVal.ogetD record cfg.sub_items_attr (JVal.obj [])
  if JVal.pyFalsy items_obj then []
  else
    match cfg.itemFilter with
    | some (attr, value) =>
        (JVal.asList (JVal.ogetD items_obj "data" (JVal.arr []))).filter
          (fun i => (JVal.oget i attr).getD JVal.null == value)
    | none => JVal.asList (JVal.ogetD items_obj "data" (JVal.arr []))

/-- The overflow items a `StripeSubStream` emits for one parent record: the
overflow read's output when the kept embedded items are non-empty and the
container flags `has_more`, and nothing otherwise. -/
def subOverflowPart (cfg : SubStreamCfg) (ovf : ParamDict → List JVal)
    (record : JVal) : List JVal :=
  let items_obj := JVal.ogetD record cfg.sub_items_attr (JVal.obj [])
  if JVal.pyFalsy items_obj then []
  else
    let items := subEmbeddedKept cfg record
    if JVal.pyTruthy (JVal.ogetD items_obj "has_more" JVal.null) ∧ items ≠ [] then
      ovf [(cfg.parent_id, JVal.ogetD record "id" JVal.null),
           ("starting_after", JVal.ogetD (items.getLastD JVal.null) "id" JVal.null)]
    else []

/-- C5 (amended): for a `SubStream` with a configured filter and no
parent-id injection, the per-parent emission is exactly the filtered
embedded items followed by the overflow read's output, and no *embedded*
record fails the filter; overflow records are emitted without client-side
filtering. -/
theorem c5_filter_embedded_only (cfg : SubStreamCfg) (attr : String) (value : JVal)
    (ovf : ParamDict → List JVal) (record : JVal)
    (hf : cfg.itemFilter = some (attr, value)) (hnp : cfg.add_parent_id = false) :
    processParent cfg ovf record =
      subEmbeddedKept cfg record ++ subOverflowPart cfg ovf record ∧
    ∀ r ∈ subEmbeddedKept cfg record, (JVal.oget r attr).getD JVal.null = value := by
  constructor
  · by_cases hfal :
        JVal.pyFalsy (JVal.ogetD record cfg.sub_items_attr (JVal.obj [])) = true
    · simp [processParent, subEmbeddedKept, subOverflowPart, hfal]
    · simp [processParent, subEmbeddedKept, subOverflowPart, hfal, hf, hnp]
  · intro r hr
    simp only [subEmbeddedKept, hf] at hr
    by_cases hfal :
        JVal.pyFalsy (JVal.ogetD record cfg.sub_items_attr (JVal.obj [])) = true
    · rw [if_pos hfal] at hr
      exact absurd hr (List.not_mem_nil r)
    · rw [if_neg hfal] at hr
      have hb := (List.mem_filter.mp hr).2
      simpa using hb

/-- Witness for C5 (amended) at the `BankAccounts` configuration. -/
theorem c5_filter_embedded_only_witness :
    subEmbeddedKept bankAccountsCfg c5ParentRecord =
      [JVal.obj [("id", JVal.str "ba_1"), ("object", JVal.str "bank_account")]] ∧
    (JVal.oget (JVal.obj [("id", JVal.str "ba_1"),
      ("object", JVal.str "bank_account")]) "object").getD JVal.null =
      JVal.str "bank_account" ∧
    processParent bankAccountsCfg (subStreamOverflowRead 5 c5Backend) c5ParentRecord =
      subEmbeddedKept bankAccountsCfg c5ParentRecord ++
        subOverflowPart bankAccountsCfg (subStreamOverflowRead 5 c5Backend)
          c5ParentRecord := by
  have h := c5_filter_embedded_only bankAccountsCfg "object" (JVal.str "bank_account")
    (subStreamOverflowRead 5 c5Backend) c5ParentRecord rfl rfl
  refine ⟨rfl, ?_, h.1⟩
  refine h.2 _ ?_
  rw [show subEmbeddedKept bankAccountsCfg c5ParentRecord =
    [JVal.obj [("id", JVal.str "ba_1"), ("object", JVal.str "bank_account")]] from rfl]
  simp
